import Mathlib

/-!
Shallow embedding of the retry-queue and scheduler subsystem of the
flywheel service (src/services/retry module and src/scheduler module),
together with theorems settling the specification claims about it.

Timestamps are modelled as natural numbers (milliseconds since epoch):
the source stores ISO-8601 strings whose lexicographic order agrees with
chronological order, and compares them with `lte` / `lt` store filters.
Payloads are opaque in the source (`Record<string, unknown>` carried
verbatim); they are modelled as opaque strings.
-/

namespace Flywheel

/-- Operation types accepted by the retry queue
    (`operation_type` CHECK constraint of the `retry_queue` table). -/
inductive OperationType where
  | fee_claim
  | buyback
  | burn
  | register
deriving DecidableEq, Repr

/-- The `status` column of the `retry_queue` table. -/
inductive RetryStatus where
  | pending
  | processing
  | completed
  | failed
deriving DecidableEq, Repr

/-- One row of the `retry_queue` table, mirroring the SQL schema and the
    generated `Row` type. `id` is a natural number standing in for the UUID. -/
structure RetryQueueItem where
  id : Nat
  operation_type : OperationType
  pool_address : Option String
  payload : String
  retry_count : Nat
  max_retries : Nat
  last_error : Option String
  last_attempt_at : Option Nat
  next_retry_at : Nat
  status : RetryStatus
  created_at : Nat
  updated_at : Nat
deriving DecidableEq, Repr

/-- `RETRY_BACKOFF_BASE_SECONDS = 60` (1 minute base). -/
def RETRY_BACKOFF_BASE_SECONDS : Nat := 60

/-- `MAX_RETRY_BACKOFF_SECONDS = 3600` (1 hour max). -/
def MAX_RETRY_BACKOFF_SECONDS : Nat := 3600

/-- The backoff seconds computed inside `calculateNextRetryTime`:
    `Math.min(RETRY_BACKOFF_BASE_SECONDS * Math.pow(2, retryCount), MAX_RETRY_BACKOFF_SECONDS)`. -/
def backoffSeconds (retryCount : Nat) : Nat :=
  min (RETRY_BACKOFF_BASE_SECONDS * 2 ^ retryCount) MAX_RETRY_BACKOFF_SECONDS

/-- `calculateNextRetryTime(retryCount)`: `Date.now()` is made explicit as
    `now` (milliseconds); the result is `now + backoffSeconds * 1000`. -/
def calculateNextRetryTime (now retryCount : Nat) : Nat :=
  now + backoffSeconds retryCount * 1000

/-- The retry section of the application configuration
    (`config.retry` in src/config: `maxRetries`, `backoffMultiplier`). -/
structure RetryConfig where
  maxRetries : Nat
  backoffMultiplier : Nat
deriving DecidableEq, Repr

/-- `calculateNextRetryTime` as compiled in its module: the application
    config (and in particular `config.retry.backoffMultiplier`) is importable
    there, but the function body reads only the two hardcoded constants, so
    the config argument made explicit here is not consumed. -/
def calculateNextRetryTimeCfg (_cfg : RetryConfig) (now retryCount : Nat) : Nat :=
  calculateNextRetryTime now retryCount

/-- The row written by `addToRetryQueue` on a successful insert: the insert
    payload carries `operation_type`, `pool_address`, `payload`, `max_retries`
    and `next_retry_at = now`; the remaining columns take the table defaults
    (`retry_count` 0, `status` pending, `created_at`/`updated_at` now,
    `last_error`/`last_attempt_at` null, fresh `id`). -/
def freshRetryItem (id : Nat) (op : OperationType) (pool : Option String)
    (payload : String) (maxRetries : Nat) (now : Nat) : RetryQueueItem :=
  { id := id
    operation_type := op
    pool_address := pool
    payload := payload
    retry_count := 0
    max_retries := maxRetries
    last_error := none
    last_attempt_at := none
    next_retry_at := now
    status := .pending
    created_at := now
    updated_at := now }

/-- The first update of `processRetryItem`: mark the row `processing` and
    record `last_attempt_at = now`. -/
def markProcessing (t : Nat) (item : RetryQueueItem) : RetryQueueItem :=
  { item with status := .processing, last_attempt_at := some t }

/-- The catch-branch update of `processRetryItem` at time `t` with error
    message `err`: `newRetryCount = retry_count + 1`; if
    `newRetryCount >= max_retries` the row becomes `failed` with
    `last_error` recorded, otherwise it becomes `pending` again with
    `next_retry_at = calculateNextRetryTime(newRetryCount)`. -/
def processRetryItemFailure (t : Nat) (err : String) (item : RetryQueueItem) :
    RetryQueueItem :=
  let newRetryCount := item.retry_count + 1
  if item.max_retries ≤ newRetryCount then
    { item with
        status := .failed
        retry_count := newRetryCount
        last_error := some err
        updated_at := t }
  else
    { item with
        status := .pending
        retry_count := newRetryCount
        last_error := some err
        next_retry_at := calculateNextRetryTime t newRetryCount
        updated_at := t }

/-- One complete failed processing attempt of a retry item at time `t`:
    `processRetryItem` first marks the row `processing`, then the dispatched
    operation fails and the catch branch runs. -/
def failedAttempt (t : Nat) (err : String) (item : RetryQueueItem) :
    RetryQueueItem :=
  processRetryItemFailure t err (markProcessing t item)

/-- A sequence of consecutive failed attempts, each with its own attempt
    time and error message. -/
def iterateFailures : List (Nat × String) → RetryQueueItem → RetryQueueItem
  | [], item => item
  | (t, e) :: rest, item => iterateFailures rest (failedAttempt t e item)

theorem failedAttempt_retry_count (t : Nat) (e : String) (item : RetryQueueItem) :
    (failedAttempt t e item).retry_count = item.retry_count + 1 := by
  simp only [failedAttempt, processRetryItemFailure, markProcessing]
  split <;> rfl

theorem failedAttempt_max_retries (t : Nat) (e : String) (item : RetryQueueItem) :
    (failedAttempt t e item).max_retries = item.max_retries := by
  simp only [failedAttempt, processRetryItemFailure, markProcessing]
  split <;> rfl

theorem iterateFailures_retry_count (attempts : List (Nat × String))
    (item : RetryQueueItem) :
    (iterateFailures attempts item).retry_count =
      item.retry_count + attempts.length := by
  induction attempts generalizing item with
  | nil => simp [iterateFailures]
  | cons a rest ih =>
    obtain ⟨t, e⟩ := a
    simp only [iterateFailures, List.length_cons]
    rw [ih, failedAttempt_retry_count]
    omega

theorem iterateFailures_max_retries (attempts : List (Nat × String))
    (item : RetryQueueItem) :
    (iterateFailures attempts item).max_retries = item.max_retries := by
  induction attempts generalizing item with
  | nil => rfl
  | cons a rest ih =>
    obtain ⟨t, e⟩ := a
    simp only [iterateFailures]
    rw [ih, failedAttempt_max_retries]

theorem iterateFailures_status (attempts : List (Nat × String))
    (hne : attempts ≠ []) (item : RetryQueueItem) :
    ((iterateFailures attempts item).status = .failed ↔
        item.max_retries ≤ item.retry_count + attempts.length) ∧
      ((iterateFailures attempts item).status = .pending ↔
        item.retry_count + attempts.length < item.max_retries) ∧
      (iterateFailures attempts item).last_error.isSome = true := by
  induction attempts generalizing item with
  | nil => exact absurd rfl hne
  | cons a rest ih =>
    obtain ⟨t, e⟩ := a
    by_cases hrest : rest = []
    · subst hrest
      simp only [iterateFailures, failedAttempt, processRetryItemFailure,
        markProcessing, List.length_cons, List.length_nil]
      split <;> rename_i hcond <;> refine ⟨?_, ?_, by simp⟩ <;> simp <;> omega
    · simp only [iterateFailures, List.length_cons]
      have h := ih hrest (failedAttempt t e item)
      rw [failedAttempt_retry_count, failedAttempt_max_retries] at h
      refine ⟨?_, ?_, h.2.2⟩
      · rw [h.1]; omega
      · rw [h.2.1]; omega

/-- C1: for every retry-queue item, after N consecutive failed processing
    attempts its `retry_count` equals N, its status is `failed` exactly when
    `N ≥ max_retries` (so with `max_retries = 5` the 5th failure is terminal),
    every earlier failure leaves it `pending`, and a terminal failure records
    `last_error`. -/
theorem retry_failure_count_and_terminal_status
    (id : Nat) (op : OperationType) (pool : Option String) (payload : String)
    (maxRetries t0 N : Nat) (hM : 1 ≤ maxRetries)
    (attempts : List (Nat × String)) (hN : attempts.length = N) :
    (iterateFailures attempts
        (freshRetryItem id op pool payload maxRetries t0)).retry_count = N ∧
      ((iterateFailures attempts
          (freshRetryItem id op pool payload maxRetries t0)).status = .failed ↔
        maxRetries ≤ N) ∧
      ((iterateFailures attempts
          (freshRetryItem id op pool payload maxRetries t0)).status = .pending ↔
        N < maxRetries) ∧
      (maxRetries ≤ N →
        (iterateFailures attempts
          (freshRetryItem id op pool payload maxRetries t0)).last_error.isSome = true) := by
  have hrc : (freshRetryItem id op pool payload maxRetries t0).retry_count = 0 := rfl
  have hmr : (freshRetryItem id op pool payload maxRetries t0).max_retries =
    maxRetries := rfl
  have hcount := iterateFailures_retry_count attempts
    (freshRetryItem id op pool payload maxRetries t0)
  rw [hrc, Nat.zero_add, hN] at hcount
  rcases eq_or_ne attempts [] with hnil | hne
  · subst hnil
    simp only [List.length_nil] at hN
    subst hN
    refine ⟨hcount, ?_, ?_, ?_⟩ <;>
      simp [iterateFailures, freshRetryItem] <;> omega
  · have h := iterateFailures_status attempts hne
      (freshRetryItem id op pool payload maxRetries t0)
    rw [hrc, hmr, Nat.zero_add, hN] at h
    exact ⟨hcount, h.1, h.2.1, fun _ => h.2.2⟩

theorem retry_failure_count_and_terminal_status_witness :
    (iterateFailures [(1000, "a"), (2000, "b"), (3000, "c"), (4000, "d"), (5000, "e")]
        (freshRetryItem 0 .buyback none "p" 5 0)).retry_count = 5 ∧
      ((iterateFailures [(1000, "a"), (2000, "b"), (3000, "c"), (4000, "d"), (5000, "e")]
          (freshRetryItem 0 .buyback none "p" 5 0)).status = .failed ↔ 5 ≤ 5) ∧
      ((iterateFailures [(1000, "a"), (2000, "b"), (3000, "c"), (4000, "d"), (5000, "e")]
          (freshRetryItem 0 .buyback none "p" 5 0)).status = .pending ↔ 5 < 5) ∧
      (5 ≤ 5 →
        (iterateFailures [(1000, "a"), (2000, "b"), (3000, "c"), (4000, "d"), (5000, "e")]
          (freshRetryItem 0 .buyback none "p" 5 0)).last_error.isSome = true) :=
  retry_failure_count_and_terminal_status 0 .buyback none "p" 5 0 5 (by decide)
    [(1000, "a"), (2000, "b"), (3000, "c"), (4000, "d"), (5000, "e")] rfl

/-- C2: the backoff delay applied to a non-terminal failed attempt is
    `min(60 * 2 ^ retryCountAfterIncrement, 3600)` seconds; as a function of
    the incremented retry count it is monotonically non-decreasing, capped at
    3600, with `backoff 0 = 60`, `backoff 3 = 480`, `backoff 6 = 3600`. -/
theorem backoff_formula_monotone_capped :
    (∀ (t : Nat) (e : String) (item : RetryQueueItem),
      item.retry_count + 1 < item.max_retries →
      (failedAttempt t e item).next_retry_at =
        t + min (60 * 2 ^ (item.retry_count + 1)) 3600 * 1000) ∧
      (∀ m n, m ≤ n → backoffSeconds m ≤ backoffSeconds n) ∧
      (∀ n, backoffSeconds n ≤ 3600) ∧
      backoffSeconds 0 = 60 ∧ backoffSeconds 3 = 480 ∧ backoffSeconds 6 = 3600 := by
  refine ⟨?_, ?_, ?_, by decide, by decide, by decide⟩
  · intro t e item h
    simp only [failedAttempt, processRetryItemFailure, markProcessing]
    rw [if_neg (by omega)]
    rfl
  · intro m n hmn
    exact min_le_min
      (Nat.mul_le_mul_left 60 (Nat.pow_le_pow_right (by norm_num) hmn)) le_rfl
  · intro n
    exact min_le_right _ _

theorem backoff_formula_monotone_capped_witness :
    (failedAttempt 0 "e" (freshRetryItem 0 .buyback none "p" 5 0)).next_retry_at =
      0 + min (60 * 2 ^ ((freshRetryItem 0 .buyback none "p" 5 0).retry_count + 1))
        3600 * 1000 ∧
      backoffSeconds 2 ≤ backoffSeconds 4 :=
  ⟨backoff_formula_monotone_capped.1 0 "e" (freshRetryItem 0 .buyback none "p" 5 0)
      (by decide),
    backoff_formula_monotone_capped.2.1 2 4 (by decide)⟩

/-- C7: `next_retry_at` is monotonically non-decreasing across an item's life:
    it starts as the creation time, and a failed attempt processed at a time
    `t` at which the item was due produces a `next_retry_at` that is at least
    the previous one. -/
theorem next_retry_at_monotone
    (item : RetryQueueItem) (t : Nat) (e : String)
    (hdue : item.next_retry_at ≤ t) :
    item.next_retry_at ≤ (failedAttempt t e item).next_retry_at ∧
      (∀ (id : Nat) (op : OperationType) (pool : Option String)
        (payload : String) (maxRetries now : Nat),
        (freshRetryItem id op pool payload maxRetries now).next_retry_at = now) := by
  refine ⟨?_, fun _ _ _ _ _ _ => rfl⟩
  simp only [failedAttempt, processRetryItemFailure, markProcessing]
  split
  · exact le_rfl
  · exact le_trans hdue (Nat.le_add_right _ _)

theorem next_retry_at_monotone_witness :
    (freshRetryItem 0 .burn none "p" 5 100).next_retry_at ≤
      (failedAttempt 200 "e" (freshRetryItem 0 .burn none "p" 5 100)).next_retry_at :=
  (next_retry_at_monotone (freshRetryItem 0 .burn none "p" 5 100) 200 "e" (by decide)).1

/-- C9: the computed backoff does not depend on the configured
    `backoffMultiplier`: any two retry configurations yield the same
    `next_retry_at` for the same retry count and clock, and the value is the
    fixed base-2 exponential with a 60-second base. -/
theorem backoff_independent_of_configured_multiplier
    (cfg1 cfg2 : RetryConfig) (now n : Nat) :
    calculateNextRetryTimeCfg cfg1 now n = calculateNextRetryTimeCfg cfg2 now n ∧
      calculateNextRetryTimeCfg cfg1 now n = now + min (60 * 2 ^ n) 3600 * 1000 :=
  ⟨rfl, rfl⟩

/-- Milliseconds per day, used to model `cutoffDate.setDate(getDate() - olderThanDays)`. -/
def MS_PER_DAY : Nat := 86400000

/-- The delete filter of `cleanupRetryQueue`:
    `.in('status', ['completed', 'failed']).lt('updated_at', cutoff)`. -/
def cleanupMatch (cutoff : Nat) (i : RetryQueueItem) : Bool :=
  (i.status == .completed || i.status == .failed) && decide (i.updated_at < cutoff)

/-- `cleanupRetryQueue(olderThanDays)` over a store modelled as a list of
    rows: deletes the rows matched by `cleanupMatch` against the cutoff
    `now - olderThanDays` days and returns the number of deleted rows
    together with the remaining store contents. -/
def cleanupRetryQueue (now olderThanDays : Nat) (db : List RetryQueueItem) :
    Nat × List RetryQueueItem :=
  let cutoff := now - olderThanDays * MS_PER_DAY
  ((db.filter (cleanupMatch cutoff)).length,
    db.filter (fun i => ! cleanupMatch cutoff i))

/-- C8: `cleanupRetryQueue(olderThanDays)` deletes exactly the items with
    status `completed` or `failed` whose `updated_at` is older than the
    cutoff, returns the number deleted, and keeps every `pending` or
    `processing` item regardless of age. -/
theorem cleanup_deletes_exactly_old_terminal
    (now olderThanDays : Nat) (db : List RetryQueueItem) :
    (cleanupRetryQueue now olderThanDays db).1 =
      db.countP (cleanupMatch (now - olderThanDays * MS_PER_DAY)) ∧
      (∀ i ∈ db, (i ∈ (cleanupRetryQueue now olderThanDays db).2 ↔
        ¬((i.status = .completed ∨ i.status = .failed) ∧
          i.updated_at < now - olderThanDays * MS_PER_DAY))) ∧
      (∀ i ∈ db, i.status = .pending ∨ i.status = .processing →
        i ∈ (cleanupRetryQueue now olderThanDays db).2) := by
  refine ⟨(List.countP_eq_length_filter _ _).symm, ?_, ?_⟩
  · intro i hi
    simp [cleanupRetryQueue, List.mem_filter, hi, cleanupMatch,
      Bool.and_eq_true, Bool.or_eq_true, not_and, not_or]
    tauto
  · intro i hi hstat
    simp [cleanupRetryQueue, List.mem_filter, hi, cleanupMatch]
    rcases hstat with h | h <;> simp [h]

/-- A stuck pending item with a very old `updated_at`. -/
def stuckPendingItem : RetryQueueItem := freshRetryItem 1 .fee_claim none "p" 5 0

/-- A completed item with a very old `updated_at`. -/
def oldCompletedItem : RetryQueueItem :=
  { freshRetryItem 2 .burn none "q" 5 0 with status := .completed }

theorem cleanup_deletes_exactly_old_terminal_witness :
    stuckPendingItem ∈
      (cleanupRetryQueue (10 * MS_PER_DAY) 7 [stuckPendingItem, oldCompletedItem]).2 :=
  (cleanup_deletes_exactly_old_terminal (10 * MS_PER_DAY) 7
      [stuckPendingItem, oldCompletedItem]).2.2 stuckPendingItem (by simp)
    (Or.inl rfl)

/-- The row filter of `getPendingRetries`:
    `.eq('status', 'pending').lte('next_retry_at', now)`. -/
def isDue (now : Nat) (i : RetryQueueItem) : Bool :=
  i.status == .pending && decide (i.next_retry_at ≤ now)

/-- Insertion step of the store's `order('created_at', ascending)` ordering. -/
def insertByCreatedAt (x : RetryQueueItem) :
    List RetryQueueItem → List RetryQueueItem
  | [] => [x]
  | y :: ys =>
    if x.created_at ≤ y.created_at then x :: y :: ys
    else y :: insertByCreatedAt x ys

/-- The store's `order('created_at', ascending)` clause, modelled as an
    insertion sort on `created_at`. -/
def sortByCreatedAt : List RetryQueueItem → List RetryQueueItem
  | [] => []
  | x :: xs => insertByCreatedAt x (sortByCreatedAt xs)

/-- `getPendingRetries()` over a store modelled as a list of rows: filter
    `status = pending` and `next_retry_at ≤ now`, order by `created_at`
    ascending, `limit(10)`. -/
def getPendingRetries (now : Nat) (db : List RetryQueueItem) :
    List RetryQueueItem :=
  (sortByCreatedAt (db.filter (isDue now))).take 10

theorem mem_insertByCreatedAt {x a : RetryQueueItem} {l : List RetryQueueItem} :
    x ∈ insertByCreatedAt a l ↔ x = a ∨ x ∈ l := by
  induction l with
  | nil => simp [insertByCreatedAt]
  | cons y ys ih =>
    simp only [insertByCreatedAt]
    split
    · simp
    · simp only [List.mem_cons, ih]
      tauto

theorem mem_sortByCreatedAt {x : RetryQueueItem} {l : List RetryQueueItem} :
    x ∈ sortByCreatedAt l ↔ x ∈ l := by
  induction l with
  | nil => simp [sortByCreatedAt]
  | cons y ys ih => simp [sortByCreatedAt, mem_insertByCreatedAt, ih]

theorem pairwise_insertByCreatedAt {a : RetryQueueItem} {l : List RetryQueueItem}
    (h : l.Pairwise (fun u v => u.created_at ≤ v.created_at)) :
    (insertByCreatedAt a l).Pairwise (fun u v => u.created_at ≤ v.created_at) := by
  induction l with
  | nil => simp [insertByCreatedAt]
  | cons y ys ih =>
    rw [List.pairwise_cons] at h
    obtain ⟨hy, hys⟩ := h
    simp only [insertByCreatedAt]
    split <;> rename_i hle
    · rw [List.pairwise_cons]
      refine ⟨?_, List.pairwise_cons.mpr ⟨hy, hys⟩⟩
      intro b hb
      rcases List.mem_cons.mp hb with rfl | hb
      · exact hle
      · exact le_trans hle (hy b hb)
    · rw [List.pairwise_cons]
      refine ⟨?_, ih hys⟩
      intro b hb
      rcases mem_insertByCreatedAt.mp hb with rfl | hb
      · exact le_of_not_le hle
      · exact hy b hb

theorem pairwise_sortByCreatedAt (l : List RetryQueueItem) :
    (sortByCreatedAt l).Pairwise (fun u v => u.created_at ≤ v.created_at) := by
  induction l with
  | nil => simp [sortByCreatedAt]
  | cons y ys ih => exact pairwise_insertByCreatedAt ih

/-- C6: `getPendingRetries` returns only items with status `pending` and
    `next_retry_at ≤ now`, in non-decreasing `created_at` order (oldest
    first), and at most 10 of them; `processRetryQueue` walks this list front
    to back, so one drain cycle processes its items in `created_at` order. -/
theorem getPendingRetries_due_sorted_limited (now : Nat)
    (db : List RetryQueueItem) :
    (∀ i ∈ getPendingRetries now db,
      i.status = .pending ∧ i.next_retry_at ≤ now ∧ i ∈ db) ∧
      (getPendingRetries now db).Pairwise
        (fun u v => u.created_at ≤ v.created_at) ∧
      (getPendingRetries now db).length ≤ 10 := by
  refine ⟨?_, ?_, List.length_take_le _ _⟩
  · intro i hi
    have hmem : i ∈ sortByCreatedAt (db.filter (isDue now)) :=
      List.take_subset _ _ hi
    have hfil : i ∈ db.filter (isDue now) := mem_sortByCreatedAt.mp hmem
    rw [List.mem_filter] at hfil
    obtain ⟨hdb, hdue⟩ := hfil
    simp only [isDue, Bool.and_eq_true, beq_iff_eq, decide_eq_true_eq] at hdue
    exact ⟨hdue.1, hdue.2, hdb⟩
  · exact List.Pairwise.sublist (List.take_sublist _ _) (pairwise_sortByCreatedAt _)

/-- A due pending item created late. -/
def lateDueItem : RetryQueueItem := freshRetryItem 3 .register none "r" 5 500

/-- A due pending item created early. -/
def earlyDueItem : RetryQueueItem := freshRetryItem 4 .buyback none "s" 5 100

/-- A pending item whose `next_retry_at` is in the future. -/
def notDueItem : RetryQueueItem := freshRetryItem 5 .burn none "t" 5 9999

theorem getPendingRetries_due_sorted_limited_witness :
    (earlyDueItem.status = .pending ∧ earlyDueItem.next_retry_at ≤ 1000 ∧
        earlyDueItem ∈ [lateDueItem, earlyDueItem, notDueItem]) ∧
      (getPendingRetries 1000 [lateDueItem, earlyDueItem, notDueItem]).Pairwise
        (fun u v => u.created_at ≤ v.created_at) :=
  ⟨(getPendingRetries_due_sorted_limited 1000
      [lateDueItem, earlyDueItem, notDueItem]).1 earlyDueItem (by decide),
    (getPendingRetries_due_sorted_limited 1000
      [lateDueItem, earlyDueItem, notDueItem]).2.1⟩

/-- One file of the local fallback directory
    (`data/retry-fallback/<epoch-ms>-<operationType>.json`). `name` stands in
    for the timestamped filename; `readable` is false when reading or parsing
    the file raises during the drain. -/
structure FallbackFile where
  name : Nat
  readable : Bool
  opType : OperationType
  poolAddress : Option String
  payload : String
  createdAt : Nat
deriving DecidableEq, Repr

/-- The state visible to the retry-queue engine: the operation store (its
    reachability and the `retry_queue` rows), the fallback directory (its
    existence, files, write health), the clock, and fresh id/name supplies. -/
structure World where
  dbOnline : Bool
  fsWriteOk : Bool
  dirExists : Bool
  db : List RetryQueueItem
  files : List FallbackFile
  now : Nat
  nextId : Nat
  nextName : Nat
deriving DecidableEq, Repr

/-- The `supabase.from('retry_queue').insert(item)` call of `addToRetryQueue`:
    raises when the store is unreachable, otherwise appends the new row with
    the insert payload plus the table defaults. -/
def supabaseInsertRetry (op : OperationType) (pool : Option String)
    (payload : String) (maxRetries : Nat) (w : World) : Except String World :=
  if w.dbOnline then
    .ok { w with
            db := w.db ++ [freshRetryItem w.nextId op pool payload maxRetries w.now]
            nextId := w.nextId + 1 }
  else .error "database offline"

/-- The `fs.mkdir` + `fs.writeFile` pair inside `storeLocalFallback`: raises
    when the filesystem write fails, otherwise creates the fallback directory
    and a fresh timestamped file holding
    `{operationType, poolAddress, payload, createdAt}`. -/
def writeFallbackFile (op : OperationType) (pool : Option String)
    (payload : String) (w : World) : Except String World :=
  if w.fsWriteOk then
    .ok { w with
            dirExists := true
            files := w.files ++ [⟨w.nextName, true, op, pool, payload, w.now⟩]
            nextName := w.nextName + 1 }
  else .error "write failed"

/-- `storeLocalFallback`: tries the filesystem write and catches any file
    error (logging it), so it is total. -/
def storeLocalFallback (op : OperationType) (pool : Option String)
    (payload : String) (w : World) : World :=
  match writeFallbackFile op pool payload w with
  | .ok w' => w'
  | .error _ => w

/-- `addToRetryQueue(operationType, poolAddress, payload, maxRetries = 5)`:
    tries the store insert; on any error falls back to `storeLocalFallback`.
    The result is `.ok` on every path — the catch swallows the store error. -/
def addToRetryQueue (op : OperationType) (pool : Option String)
    (payload : String) (maxRetries : Nat) (w : World) : Except String World :=
  match supabaseInsertRetry op pool payload maxRetries w with
  | .ok w' => .ok w'
  | .error _ => .ok (storeLocalFallback op pool payload w)

/-- `fs.unlink` of one fallback file. -/
def unlinkFile (name : Nat) (w : World) : World :=
  { w with files := w.files.filter (fun f => f.name != name) }

/-- The `for` loop of `processLocalFallbacks` over the `readdir` snapshot:
    reads each file (raising with the progress so far when the read or parse
    fails), re-enqueues it, unlinks it, and counts it as processed. The error
    payload carries the mutated state and counter at the raise point. -/
def processFallbackLoop : List FallbackFile → Nat → World →
    Except (Nat × World) (Nat × World)
  | [], acc, w => .ok (acc, w)
  | f :: rest, acc, w =>
    if f.readable then
      match addToRetryQueue f.opType f.poolAddress f.payload 5 w with
      | .ok w' => processFallbackLoop rest (acc + 1) (unlinkFile f.name w')
      | .error _ => .error (acc, w)
    else
      .error (acc, w)

/-- `processLocalFallbacks()`: if the fallback directory is missing, the
    `readdir` ENOENT error is caught and 0 is returned; otherwise the loop
    runs over the directory snapshot, and any raise inside it is caught by
    the surrounding try/catch, returning the count accumulated so far. -/
def processLocalFallbacks (w : World) : Nat × World :=
  if w.dirExists then
    match processFallbackLoop w.files 0 w with
    | .ok r => r
    | .error r => r
  else
    (0, w)

/-- C3: `addToRetryQueue` returns normally for every input and every store /
    filesystem condition: a successful insert writes a new row with status
    `pending`, `retry_count = 0` and `next_retry_at = now`; a failed insert
    writes a local fallback file instead; and when even that write fails the
    call still returns `.ok` leaving the state unchanged. -/
theorem addToRetryQueue_never_raises (op : OperationType) (pool : Option String)
    (payload : String) (maxRetries : Nat) (w : World) :
    ∃ w', addToRetryQueue op pool payload maxRetries w = .ok w' ∧
      (w.dbOnline = true →
        w'.db = w.db ++ [freshRetryItem w.nextId op pool payload maxRetries w.now] ∧
        w'.files = w.files) ∧
      (w.dbOnline = false → w'.db = w.db ∧
        (w.fsWriteOk = true →
          w'.files = w.files ++ [⟨w.nextName, true, op, pool, payload, w.now⟩]) ∧
        (w.fsWriteOk = false → w' = w)) ∧
      (freshRetryItem w.nextId op pool payload maxRetries w.now).status = .pending ∧
      (freshRetryItem w.nextId op pool payload maxRetries w.now).retry_count = 0 ∧
      (freshRetryItem w.nextId op pool payload maxRetries w.now).next_retry_at =
        w.now := by
  cases hdb : w.dbOnline
  · cases hfs : w.fsWriteOk
    · refine ⟨w, ?_, by simp [hdb], fun _ => ⟨rfl, by simp [hfs], fun _ => rfl⟩,
        rfl, rfl, rfl⟩
      simp [addToRetryQueue, supabaseInsertRetry, storeLocalFallback,
        writeFallbackFile, hdb, hfs]
    · refine ⟨{ w with
          dirExists := true
          files := w.files ++ [⟨w.nextName, true, op, pool, payload, w.now⟩]
          nextName := w.nextName + 1 }, ?_, by simp [hdb],
        fun _ => ⟨rfl, fun _ => rfl, by simp [hfs]⟩, rfl, rfl, rfl⟩
      simp [addToRetryQueue, supabaseInsertRetry, storeLocalFallback,
        writeFallbackFile, hdb, hfs]
  · refine ⟨{ w with
        db := w.db ++ [freshRetryItem w.nextId op pool payload maxRetries w.now]
        nextId := w.nextId + 1 }, ?_, fun _ => ⟨rfl, rfl⟩, by simp [hdb],
      rfl, rfl, rfl⟩
    simp [addToRetryQueue, supabaseInsertRetry, hdb]

/-- A world whose store is reachable. -/
def onlineWorld : World :=
  { dbOnline := true, fsWriteOk := true, dirExists := false, db := [],
    files := [], now := 1000, nextId := 0, nextName := 0 }

theorem addToRetryQueue_never_raises_witness :
    ∃ w', addToRetryQueue .register none "p" 5 onlineWorld = .ok w' := by
  obtain ⟨w', hok, -⟩ := addToRetryQueue_never_raises .register none "p" 5 onlineWorld
  exact ⟨w', hok⟩

/-- The single fallback file of the counterexample world. -/
def fallbackFile0 : FallbackFile := ⟨0, true, .buyback, none, "p", 0⟩

/-- A world in which the store is still unreachable while one fallback file
    is on disk and the filesystem is healthy. -/
def outageWorld : World :=
  { dbOnline := false, fsWriteOk := true, dirExists := true, db := [],
    files := [fallbackFile0], now := 1000, nextId := 0, nextName := 1 }

/-- C5 counterexample: in `outageWorld` the store insert fails while
    re-submitting `fallbackFile0`, yet after `processLocalFallbacks` the
    record's file (name 0) is no longer on disk — the enqueue fallback wrote
    a fresh file (name 1) and the original was unlinked, contradicting the
    claim that a store error leaves that record's file for the next cycle. -/
theorem processLocalFallbacks_store_error_counterexample :
    outageWorld.dbOnline = false ∧
      outageWorld.files.map FallbackFile.name = [0] ∧
      (processLocalFallbacks outageWorld).2.files.map FallbackFile.name = [1] := by
  refine ⟨rfl, rfl, ?_⟩
  rfl

/-- C5 amended: with zero files, or a missing fallback directory, the call is
    a no-op returning 0; an error while reading a record leaves that record's
    file on disk without raising; but an error while re-submitting to the
    store is swallowed by the enqueue fallback: the original file is deleted
    and the record is carried by a freshly written fallback file instead. -/
theorem processLocalFallbacks_amended :
    (∀ w : World, w.dirExists = false → processLocalFallbacks w = (0, w)) ∧
      (∀ w : World, w.files = [] → processLocalFallbacks w = (0, w)) ∧
      (∀ (w : World) (f : FallbackFile) (rest : List FallbackFile),
        w.files = f :: rest → f.readable = false →
        processLocalFallbacks w = (0, w)) ∧
      (∀ (w : World) (f : FallbackFile),
        w.files = [f] → f.readable = true → w.dirExists = true →
        w.dbOnline = false → w.fsWriteOk = true → f.name ≠ w.nextName →
        (processLocalFallbacks w).1 = 1 ∧
        (processLocalFallbacks w).2.files =
          [⟨w.nextName, true, f.opType, f.poolAddress, f.payload, w.now⟩]) := by
  refine ⟨?_, ?_, ?_, ?_⟩
  · intro w h
    simp [processLocalFallbacks, h]
  · intro w h
    cases hdir : w.dirExists <;>
      simp [processLocalFallbacks, hdir, h, processFallbackLoop]
  · intro w f rest hfiles hread
    cases hdir : w.dirExists <;>
      simp [processLocalFallbacks, hdir, hfiles, processFallbackLoop, hread]
  · intro w f hfiles hread hdir hdb hfs hname
    have hne : (w.nextName != f.name) = true := by
      simp only [bne_iff_ne, ne_eq]
      exact fun h => hname h.symm
    simp [processLocalFallbacks, hdir, hfiles, processFallbackLoop, hread,
      addToRetryQueue, supabaseInsertRetry, storeLocalFallback,
      writeFallbackFile, hdb, hfs, unlinkFile, hne]

/-- A world with no fallback directory. -/
def emptyDirWorld : World :=
  { dbOnline := true, fsWriteOk := true, dirExists := false, db := [],
    files := [], now := 0, nextId := 0, nextName := 0 }

theorem processLocalFallbacks_amended_witness :
    processLocalFallbacks emptyDirWorld = (0, emptyDirWorld) ∧
      (processLocalFallbacks outageWorld).1 = 1 :=
  ⟨processLocalFallbacks_amended.1 emptyDirWorld rfl,
    (processLocalFallbacks_amended.2.2.2 outageWorld fallbackFile0 rfl rfl rfl rfl
        rfl (by decide)).1⟩

/-- One entry of the scheduler's in-memory task registry. The cron handle
    (`task: cron.ScheduledTask | null`) is omitted: no claim observes it. -/
structure ScheduledTask where
  name : String
  cronExpression : String
  isRunning : Bool
deriving DecidableEq, Repr

/-- The module-level `tasks: Map<string, ScheduledTask>`, as an association
    list with at most one entry per key in well-formed states. -/
abbrev TaskRegistry := List (String × ScheduledTask)

/-- `tasks.get(name)`. -/
def lookupTask : TaskRegistry → String → Option ScheduledTask
  | [], _ => none
  | (k, v) :: rest, name =>
    if k = name then some v else lookupTask rest name

/-- Mutation of the `isRunning` field of the registry entry for `name`
    (`taskInfo.isRunning = b` on the object held in the map). -/
def setRunning : TaskRegistry → String → Bool → TaskRegistry
  | [], _, _ => []
  | (k, v) :: rest, name, b =>
    if k = name then (k, { v with isRunning := b }) :: rest
    else (k, v) :: setRunning rest name b

theorem lookupTask_setRunning (m : TaskRegistry) (name : String) (b : Bool) :
    lookupTask (setRunning m name b) name =
      (lookupTask m name).map (fun i => { i with isRunning := b }) := by
  induction m with
  | nil => rfl
  | cons p rest ih =>
    obtain ⟨k, v⟩ := p
    by_cases hk : k = name <;>
      simp [lookupTask, setRunning, hk, ih]

/-- The guard prologue shared by every task handler
    (`const taskInfo = tasks.get(name); if (taskInfo?.isRunning) return;`
    `if (taskInfo) taskInfo.isRunning = true;`): returns whether the handler
    body runs, together with the updated registry. When the name is absent
    the body runs with no flag set. -/
def taskEnter (m : TaskRegistry) (name : String) : Bool × TaskRegistry :=
  match lookupTask m name with
  | some info =>
    if info.isRunning then (false, m) else (true, setRunning m name true)
  | none => (true, m)

/-- The `finally` block of every task handler
    (`if (taskInfo) taskInfo.isRunning = false;`). -/
def taskExit (m : TaskRegistry) (name : String) : TaskRegistry :=
  match lookupTask m name with
  | some _ => setRunning m name false
  | none => m

/-- Two invocations of the same task handler where the second begins before
    the first resolves (the scenario of a cron tick or `triggerTask` arriving
    during an await in the body): both guards run, then each invocation that
    entered its body runs its `finally` block. The first body's outcome
    (`firstThrows`) does not change the state path, because catch and
    `finally` both release the flag. -/
def overlappedInvocations (m : TaskRegistry) (name : String)
    (_firstThrows : Bool) : Bool × Bool × TaskRegistry :=
  let (run1, m1) := taskEnter m name
  let (run2, m2) := taskEnter m1 name
  let m3 := if run2 then taskExit m2 name else m2
  let m4 := if run1 then taskExit m3 name else m3
  (run1, run2, m4)

/-- C4: for a registered, idle task, two overlapping invocations execute the
    handler body exactly once — the first enters, the second is skipped by
    the `isRunning` guard — and after the first invocation's guaranteed
    release the task is idle again, whether its body succeeded or threw. -/
theorem single_flight_overlapping_invocations (m : TaskRegistry) (name : String)
    (info : ScheduledTask) (firstThrows : Bool)
    (hlook : lookupTask m name = some info) (hidle : info.isRunning = false) :
    (overlappedInvocations m name firstThrows).1 = true ∧
      (overlappedInvocations m name firstThrows).2.1 = false ∧
      lookupTask (overlappedInvocations m name firstThrows).2.2 name =
        some { info with isRunning := false } := by
  simp [overlappedInvocations, taskEnter, taskExit, hlook, hidle,
    lookupTask_setRunning]

/-- The registry right after `startScheduler` registered the retry task. -/
def startedRegistry : TaskRegistry :=
  [("retry", { name := "Retry Queue", cronExpression := "*/5 * * * *",
               isRunning := false })]

theorem single_flight_overlapping_invocations_witness :
    (overlappedInvocations startedRegistry "retry" true).1 = true ∧
      (overlappedInvocations startedRegistry "retry" true).2.1 = false ∧
      lookupTask (overlappedInvocations startedRegistry "retry" true).2.2
          "retry" =
        some { name := "Retry Queue", cronExpression := "*/5 * * * *",
               isRunning := false } :=
  single_flight_overlapping_invocations startedRegistry "retry"
    { name := "Retry Queue", cronExpression := "*/5 * * * *",
      isRunning := false } true rfl rfl

/-- C10: when a task name is absent from the registry (scheduler never
    started, `stopScheduler` cleared it, or the cron expression failed
    validation), the handler — also when reached through `triggerTask`, which
    calls the same function — has no single-flight protection: the guard is
    skipped and both of two overlapping invocations run the body, leaving the
    registry unchanged. -/
theorem missing_task_no_single_flight (m : TaskRegistry) (name : String)
    (firstThrows : Bool) (habsent : lookupTask m name = none) :
    overlappedInvocations m name firstThrows = (true, true, m) := by
  simp [overlappedInvocations, taskEnter, taskExit, habsent]

theorem missing_task_no_single_flight_witness :
    overlappedInvocations ([] : TaskRegistry) "retry" false =
      (true, true, ([] : TaskRegistry)) :=
  missing_task_no_single_flight [] "retry" false rfl

end Flywheel
